import Mathlib

/-!
Verification of the computed-intelligence core of an MCP server for
Google Search Console.

JavaScript numbers are modelled as exact rationals (`ℚ`); `toFixed(n)`
followed by `Number(...)` is modelled as rounding to `n` decimal places.
Calendar dates are modelled as day numbers (`ℤ`): `Date` arithmetic via
`setUTCDate` is linear in days, so a date is its signed count of days
from a fixed epoch, and a span of `k` calendar days is a difference of
`k` between day numbers.  Non-finite doubles (`Infinity`, `-Infinity`,
`NaN`) appear only in JSON serialization and are modelled by a dedicated
constructor of `JsNum`.
-/

/-- A `{startDate, endDate}` range, both ends inclusive, as day numbers
(source: `src/utils/dates.ts`, the `{ startDate, endDate }` records). -/
structure DateRange where
  startDate : ℤ
  endDate : ℤ
  deriving DecidableEq

/-- `daysAgo(n, from)` from `src/utils/dates.ts`: the date `n` days before
`fromDate`. -/
def daysAgo (n : ℤ) (fromDate : ℤ) : ℤ := fromDate - n

/-- `relativeDateRange(days)` from `src/utils/dates.ts` (lines 28-35):
ends yesterday (reporting lag), starts `days - 1` days before the end so
that both inclusive endpoints cover `days` calendar days.  The ambient
current date is passed explicitly as `today`. -/
def relativeDateRange (today : ℤ) (days : ℤ) : DateRange :=
  let endDate := daysAgo 1 today
  let startDate := daysAgo (days - 1) endDate
  { startDate := startDate, endDate := endDate }

/-- The offset-generating loop of `rollingWindows` in `src/utils/dates.ts`:
`for (let offset = 0; offset + windowDays <= totalDays; offset += step)`.
The JavaScript loop does not terminate for `step = 0`, so the embedding
guards on `0 < step` (every theorem below assumes a positive step). -/
def rollLoop (totalDays windowDays step offset : ℕ) : List ℕ :=
  if h : offset + windowDays ≤ totalDays ∧ 0 < step then
    offset :: rollLoop totalDays windowDays step (offset + step)
  else []
termination_by totalDays + 1 - offset
decreasing_by omega

/-- `rollingWindows(totalDays, windowDays, stepDays?)` from
`src/utils/dates.ts`: windows of `windowDays` days walking back from
yesterday by `step = stepDays ?? windowDays`, reversed into oldest-first
order. -/
def rollingWindows (today : ℤ) (totalDays windowDays : ℕ)
    (stepDays : Option ℕ) : List DateRange :=
  let step := stepDays.getD windowDays
  let yesterday := daysAgo 1 today
  ((rollLoop totalDays windowDays step 0).map fun (offset : ℕ) =>
    let endDate := daysAgo ((offset : ℤ)) yesterday
    { startDate := daysAgo ((windowDays : ℤ) - 1) endDate
      endDate := endDate }).reverse

/-- Result of `pctChange` in `src/tools/computed.ts`: `Infinity`,
`null`, or a finite number, kept as distinct constructors. -/
inductive PctChange where
  | infinite : PctChange
  | undef : PctChange
  | val (x : ℚ) : PctChange
  deriving DecidableEq

/-- `Number(x.toFixed(2))`: round to 2 decimal places. -/
def round2 (x : ℚ) : ℚ := ((round (x * 100) : ℤ) : ℚ) / 100

/-- `Number(x.toFixed(1))`: round to 1 decimal place. -/
def round1 (x : ℚ) : ℚ := ((round (x * 10) : ℤ) : ℚ) / 10

/-- `pctChange(current, previous)` from `src/tools/computed.ts` lines
25-28. -/
def pctChange (current previous : ℚ) : PctChange :=
  if previous = 0 then
    (if 0 < current then PctChange.infinite else PctChange.undef)
  else PctChange.val (round2 ((current - previous) / previous * 100))

/-- `CTR_BENCHMARKS` from `src/tools/computed.ts` lines 31-42, keyed by
integer position (28.5 = 57/2, 15.7 = 157/10, ...). -/
def ctrBenchmarks : List (ℤ × ℚ) :=
  [(1, 57/2), (2, 157/10), (3, 11), (4, 8), (5, 36/5),
   (6, 51/10), (7, 4), (8, 16/5), (9, 14/5), (10, 5/2)]

/-- `expectedCtr(position)` from `src/tools/computed.ts` lines 44-47:
`Math.round` is `⌊x + 1/2⌋`, which is Mathlib's `round`; the rounded
position is clamped into `[1, 10]` and looked up, with `?? 2.0` as the
lookup fallback. -/
def expectedCtr (position : ℚ) : ℚ :=
  let rounded : ℤ := min (max (round position) 1) 10
  (ctrBenchmarks.lookup rounded).getD 2

/-- The per-loser action computation inside `handleCannibalizationResolver`
(`src/tools/computed2.ts` lines 420-432), with the winner/loser clicks and
positions as arguments. -/
def cannibalizationAction (winnerClicks loserClicks winnerPosition
    loserPosition : ℚ) : String :=
  let cr := if 0 < winnerClicks then loserClicks / winnerClicks else 0
  let gap := loserPosition - winnerPosition
  if cr < 1/10 ∧ 5 < gap then "redirect"
  else if cr < 3/10 then "consolidate"
  else "differentiate"

/-- `SearchAnalyticsRow` from `src/utils/types.ts`: every field optional. -/
structure SearchAnalyticsRow where
  keys : Option (List String)
  clicks : Option ℚ
  impressions : Option ℚ
  ctr : Option ℚ
  position : Option ℚ
  deriving DecidableEq

/-- `rowKey(row)` from `src/tools/computed.ts` lines 20-22:
`(row.keys ?? []).join('||')`. -/
def rowKey (row : SearchAnalyticsRow) : String :=
  String.intercalate "||" (row.keys.getD [])

/-- Building the `Map` over period-B rows and reading it back
(`mapB.set` overwrites, so `get` returns the last row with the key). -/
def mapGet (rows : List SearchAnalyticsRow) (key : String) :
    Option SearchAnalyticsRow :=
  rows.foldl (fun acc row => if rowKey row = key then some row else acc) none

/-- One period's metrics inside a comparison entry. -/
structure PeriodMetrics where
  clicks : ℚ
  impressions : ℚ
  ctr : ℚ
  position : ℚ
  deriving DecidableEq

/-- The `delta` block of a comparison entry. -/
structure DeltaMetrics where
  clicks : ℚ
  impressions : ℚ
  ctr : ℚ
  position : ℚ
  clicksPct : PctChange
  impressionsPct : PctChange
  deriving DecidableEq

/-- One element of the `comparisons` array built by
`handleComparePeriods`. -/
structure Comparison where
  keys : Option (List String)
  periodA : PeriodMetrics
  periodB : PeriodMetrics
  delta : DeltaMetrics
  deriving DecidableEq

/-- The body of `dataA.map((rowA) => ...)` in `handleComparePeriods`
(`src/tools/computed.ts` lines 86-111), given row A and the map lookup
for the same key in period B. -/
def compareRow (rowA : SearchAnalyticsRow)
    (rowB : Option SearchAnalyticsRow) : Comparison :=
  let clicksA := rowA.clicks.getD 0
  let clicksB := (rowB.bind (fun r => r.clicks)).getD 0
  let imprA := rowA.impressions.getD 0
  let imprB := (rowB.bind (fun r => r.impressions)).getD 0
  let ctrA := (rowA.ctr.getD 0) * 100
  let ctrB := ((rowB.bind (fun r => r.ctr)).getD 0) * 100
  let posA := rowA.position.getD 0
  let posB := (rowB.bind (fun r => r.position)).getD 0
  { keys := rowA.keys
    periodA := { clicks := clicksA, impressions := imprA
                 ctr := round2 ctrA, position := round1 posA }
    periodB := { clicks := clicksB, impressions := imprB
                 ctr := round2 ctrB, position := round1 posB }
    delta := { clicks := clicksA - clicksB
               impressions := imprA - imprB
               ctr := round2 (ctrA - ctrB)
               position := round1 (posA - posB)
               clicksPct := pctChange clicksA clicksB
               impressionsPct := pctChange imprA imprB } }

/-- The pure core of `handleComparePeriods` (`src/tools/computed.ts`
lines 82-114): index period B by key, map over the period-A rows, sort by
descending absolute click delta (the JS comparator
`Math.abs(b.delta.clicks) - Math.abs(a.delta.clicks)` over a stable sort). -/
def handleComparePeriodsComparisons (dataA dataB : List SearchAnalyticsRow) :
    List Comparison :=
  (dataA.map fun rowA => compareRow rowA (mapGet dataB (rowKey rowA))).mergeSort
    (fun a b => decide (|b.delta.clicks| ≤ |a.delta.clicks|))

/-- Period-A rows of the repository's own `compare_periods` test
("compare_periods includes keys that existed only in the previous
period"). -/
def comparePeriodsRowsA : List SearchAnalyticsRow :=
  [{ keys := some ["steady"], clicks := some 10, impressions := some 100,
     ctr := some (1/10), position := some 3 }]

/-- Period-B rows of the same test: the key `lost` exists only in the
prior period. -/
def comparePeriodsRowsB : List SearchAnalyticsRow :=
  [{ keys := some ["steady"], clicks := some 5, impressions := some 80,
     ctr := some (1/16), position := some 4 },
   { keys := some ["lost"], clicks := some 40, impressions := some 400,
     ctr := some (1/10), position := some 2 }]

/-- A JavaScript number as seen by `JSON.stringify`: finite, `Infinity`,
`-Infinity`, or `NaN`. -/
inductive JsNum where
  | finite (q : ℚ) : JsNum
  | inf : JsNum
  | negInf : JsNum
  | nan : JsNum
  deriving DecidableEq

mutual
/-- A JSON-serializable JavaScript value tree. -/
inductive JVal where
  | null : JVal
  | bool (b : Bool) : JVal
  | num (n : JsNum) : JVal
  | str (s : String) : JVal
  | arr (elems : JArr) : JVal
  | obj (fields : JObj) : JVal
/-- An array of values. -/
inductive JArr where
  | nil : JArr
  | cons (head : JVal) (tail : JArr) : JArr
/-- Ordered object fields. -/
inductive JObj where
  | nil : JObj
  | cons (key : String) (value : JVal) (tail : JObj) : JObj
end

/-- The replacer inside `jsonResult` (`src/utils/types.ts` lines 76-81):
a non-finite number becomes its `String(value)` name, everything else is
returned unchanged. -/
def serialize (v : JVal) : JVal :=
  match v with
  | .num .inf => .str "Infinity"
  | .num .negInf => .str "-Infinity"
  | .num .nan => .str "NaN"
  | v => v

mutual
/-- `JSON.stringify(data, serialize, 2)` applies the replacer at every
node of the value tree; this is the tree it actually serializes. -/
def jsonResultValue : JVal → JVal
  | .arr l => .arr (jsonResultArr l)
  | .obj f => .obj (jsonResultObj f)
  | v => serialize v
/-- `jsonResultValue` mapped over an array. -/
def jsonResultArr : JArr → JArr
  | .nil => .nil
  | .cons h t => .cons (jsonResultValue h) (jsonResultArr t)
/-- `jsonResultValue` mapped over object fields. -/
def jsonResultObj : JObj → JObj
  | .nil => .nil
  | .cons k v t => .cons k (jsonResultValue v) (jsonResultObj t)
end

mutual
/-- No non-finite number occurs anywhere in the value tree. -/
def nonFiniteFree : JVal → Bool
  | .num (.finite _) => true
  | .num _ => false
  | .arr l => nonFiniteFreeArr l
  | .obj f => nonFiniteFreeObj f
  | _ => true
/-- `nonFiniteFree` over an array. -/
def nonFiniteFreeArr : JArr → Bool
  | .nil => true
  | .cons h t => nonFiniteFree h && nonFiniteFreeArr t
/-- `nonFiniteFree` over object fields. -/
def nonFiniteFreeObj : JObj → Bool
  | .nil => true
  | .cons _ v t => nonFiniteFree v && nonFiniteFreeObj t
end

mutual
/-- The finite numeric leaves of a value tree, in order. -/
def finiteLeaves : JVal → List ℚ
  | .num (.finite q) => [q]
  | .arr l => finiteLeavesArr l
  | .obj f => finiteLeavesObj f
  | _ => []
/-- `finiteLeaves` over an array. -/
def finiteLeavesArr : JArr → List ℚ
  | .nil => []
  | .cons h t => finiteLeaves h ++ finiteLeavesArr t
/-- `finiteLeaves` over object fields. -/
def finiteLeavesObj : JObj → List ℚ
  | .nil => []
  | .cons _ v t => finiteLeaves v ++ finiteLeavesObj t
end

/-- Property access `v?.k` on a dynamic value: a field lookup that yields
nothing on non-objects or absent keys. -/
def jObjLookup : JObj → String → Option JVal
  | .nil, _ => none
  | .cons k v t, key => if k = key then some v else jObjLookup t key

/-- `jsGet v k`: the JavaScript `v?.[k]`. -/
def jsGet (v : JVal) (key : String) : Option JVal :=
  match v with
  | .obj fields => jObjLookup fields key
  | _ => none

/-- The rejection reason of a settled promise, as the dashboard reads it:
`(reason as Error)?.message` and `reason?.code`. -/
structure Reason where
  message : Option String
  code : Option String

/-- The analytics response as cast in the handlers:
`{ rows?: SearchAnalyticsRow[] }`. -/
structure AnalyticsResponse where
  rows : Option (List SearchAnalyticsRow)

/-- One Lighthouse category entry: `{ score?: number }`. -/
structure ScoreEntry where
  score : Option ℚ

/-- `lighthouseResult` as read by the dashboard. -/
structure LighthouseResult where
  categories : Option (List (String × ScoreEntry))

/-- `loadingExperience` as read by the dashboard. -/
structure LoadingExperience where
  metrics : Option JVal
  overall_category : Option String

/-- The PageSpeed Insights response as read by the dashboard. -/
structure PsiResponse where
  lighthouseResult : Option LighthouseResult
  loadingExperience : Option LoadingExperience

/-- The CrUX response as read by the dashboard: `{ data?: unknown }`. -/
structure CruxResponse where
  data : Option JVal

/-- The `inspection` field of the dashboard. -/
inductive InspectionField where
  | ok (value : JVal) : InspectionField
  | err (message : String) : InspectionField

/-- The `analytics` field of the dashboard. -/
inductive AnalyticsField where
  | ok (clicks impressions ctr position : ℚ) (note : Option String) :
      AnalyticsField
  | err (message : String) : AnalyticsField

/-- The `pageSpeed` field of the dashboard. -/
inductive PageSpeedField where
  | ok (scores : Option (List (String × ℚ))) (fieldData : Option JVal)
      (overallCategory : Option String) : PageSpeedField
  | err (message : String) : PageSpeedField

/-- The `crux` field of the dashboard: the error object carries `code`
only when `reason?.code` is truthy. -/
inductive CruxField where
  | ok (data : Option JVal) : CruxField
  | err (message : String) (code : Option String) : CruxField

/-- The composite dashboard returned by `handlePageHealthDashboard`. -/
structure Dashboard where
  url : String
  siteUrl : String
  dateRange : DateRange
  inspection : InspectionField
  analytics : AnalyticsField
  pageSpeed : PageSpeedField
  crux : CruxField

/-- JavaScript truthiness of `reason?.code` (an empty string is falsy):
`...(reason?.code ? { code: reason.code } : {})`. -/
def truthyCode : Option String → Option String
  | some c => if c = "" then none else some c
  | none => none

/-- The pure assembly step of `handlePageHealthDashboard`
(`src/tools/computed2.ts` lines 17-139): the four remote calls have
already settled (`Promise.allSettled`), each as a success value or a
rejection `Reason`; the dashboard is built with one named field per
source, embedding failures as error objects. -/
def handlePageHealthDashboard (url siteUrl : String) (dateRange : DateRange)
    (inspectionResult : Except Reason JVal)
    (analyticsResult : Except Reason AnalyticsResponse)
    (psiResult : Except Reason PsiResponse)
    (cruxResult : Except Reason CruxResponse) : Dashboard :=
  { url := url
    siteUrl := siteUrl
    dateRange := dateRange
    inspection :=
      match inspectionResult with
      | .ok data =>
        .ok (match jsGet data "inspectionResult" with
             | some JVal.null => data
             | some v => v
             | none => data)
      | .error r => .err (r.message.getD "Inspection failed")
    analytics :=
      match analyticsResult with
      | .ok a =>
        match (a.rows.getD []).head? with
        | some row =>
          .ok (row.clicks.getD 0) (row.impressions.getD 0)
            (round2 ((row.ctr.getD 0) * 100)) (round1 (row.position.getD 0))
            none
        | none => .ok 0 0 0 0 (some "No data for this URL in date range")
      | .error r => .err (r.message.getD "Analytics failed")
    pageSpeed :=
      match psiResult with
      | .ok p =>
        let categories := p.lighthouseResult.bind (fun l => l.categories)
        let loadingExp := p.loadingExperience
        .ok (categories.map (fun cats =>
              cats.map (fun entry => (entry.1, (entry.2.score.getD 0) * 100))))
          (loadingExp.bind (fun le => le.metrics))
          (loadingExp.bind (fun le => le.overall_category))
      | .error r => .err (r.message.getD "PageSpeed failed")
    crux :=
      match cruxResult with
      | .ok c => .ok c.data
      | .error r => .err (r.message.getD "CrUX failed") (truthyCode r.code) }

/-- Modelled from the spec: the Rate-Limited Sequencer (`rateLimited` in
`src/utils/retry.ts`) is not among the provided sources — only its callers
`handleBatchInspect` and `handleIndexingHealthReport` are.  Per spec §4.3
it executes an ordered list of independent thunks strictly one at a time
with a fixed minimum delay between them, and returns one result per thunk
in input order, a failed thunk contributing its error instead of a value.
The delay only sequences remote traffic and has no effect on the returned
list, so it is carried but unused here; a thunk's eventual outcome is its
`Except` result. -/
def rateLimited {ε α : Type} (fns : List (Unit → Except ε α))
    (delayMs : ℕ) : List (Except ε α) :=
  match fns with
  | [] => []
  | f :: rest => f () :: rateLimited rest delayMs

/-- C2: for every pair of numbers, `pctChange` returns the distinguished
infinite marker when `previous = 0` and `current > 0`, the distinguished
non-error undefined marker (the source's `null`) when `previous = 0` and
`current ≤ 0`, and otherwise `(current - previous) / previous * 100`
rounded to 2 decimal places; as a total function it never throws. -/
theorem pctChange_spec (current previous : ℚ) :
    (previous = 0 → 0 < current →
        pctChange current previous = PctChange.infinite) ∧
    (previous = 0 → current ≤ 0 →
        pctChange current previous = PctChange.undef) ∧
    (previous ≠ 0 → pctChange current previous
        = PctChange.val (round2 ((current - previous) / previous * 100))) ∧
    pctChange 10 0 = PctChange.infinite ∧
    pctChange 0 0 = PctChange.undef := by
  refine ⟨?_, ?_, ?_, ?_, ?_⟩
  · intro h hc; simp [pctChange, h, hc]
  · intro h hc; simp [pctChange, h, not_lt.mpr hc]
  · intro h; simp [pctChange, h]
  · norm_num [pctChange]
  · norm_num [pctChange]

/-- Witness for C2 at `(current, previous) = (10, 0)`. -/
theorem pctChange_spec_witness :
    (0 : ℚ) = 0 ∧ (0 : ℚ) < 10 ∧ pctChange 10 0 = PctChange.infinite :=
  ⟨rfl, by norm_num, (pctChange_spec 10 0).1 rfl (by norm_num)⟩

/-- C3: for every `days ≥ 1`, `relativeDateRange` ends the day before the
current date and starts exactly `days - 1` calendar days before its end,
so the inclusive range covers `days` days (span 6 for `days = 7`). -/
theorem relativeDateRange_spec (today days : ℤ) (hdays : 1 ≤ days) :
    (relativeDateRange today days).endDate = today - 1 ∧
    (relativeDateRange today days).endDate
        - (relativeDateRange today days).startDate = days - 1 := by
  constructor <;> simp [relativeDateRange, daysAgo]

/-- Witness for C3 at `today = 0`, `days = 7`. -/
theorem relativeDateRange_spec_witness :
    (1 : ℤ) ≤ 7 ∧ (relativeDateRange 0 7).endDate = 0 - 1 ∧
    (relativeDateRange 0 7).endDate - (relativeDateRange 0 7).startDate
      = 7 - 1 :=
  ⟨by norm_num, (relativeDateRange_spec 0 7 (by norm_num)).1,
   (relativeDateRange_spec 0 7 (by norm_num)).2⟩

/-- C5: with `clickRatio = loserClicks / winnerClicks` (0 when the winner
has no clicks) and `positionGap = loserPosition - winnerPosition`, the
action is `"redirect"` exactly when `clickRatio < 0.10` and
`positionGap > 5`, else `"consolidate"` exactly when `clickRatio < 0.30`,
else `"differentiate"`; the five benchmark inputs classify as stated. -/
theorem cannibalizationAction_spec :
    (∀ winnerClicks loserClicks winnerPosition loserPosition : ℚ,
      0 ≤ winnerClicks →
      ((cannibalizationAction winnerClicks loserClicks winnerPosition
            loserPosition = "redirect")
        ↔ ((if winnerClicks = 0 then 0 else loserClicks / winnerClicks) < 1/10
            ∧ 5 < loserPosition - winnerPosition)) ∧
      ((cannibalizationAction winnerClicks loserClicks winnerPosition
            loserPosition = "consolidate")
        ↔ (¬((if winnerClicks = 0 then 0 else loserClicks / winnerClicks) < 1/10
              ∧ 5 < loserPosition - winnerPosition)
            ∧ (if winnerClicks = 0 then 0 else loserClicks / winnerClicks) < 3/10)) ∧
      ((cannibalizationAction winnerClicks loserClicks winnerPosition
            loserPosition = "differentiate")
        ↔ (¬((if winnerClicks = 0 then 0 else loserClicks / winnerClicks) < 1/10
              ∧ 5 < loserPosition - winnerPosition)
            ∧ ¬((if winnerClicks = 0 then 0 else loserClicks / winnerClicks) < 3/10)))) ∧
    cannibalizationAction 100 5 3 15 = "redirect" ∧
    cannibalizationAction 100 5 3 8 = "consolidate" ∧
    cannibalizationAction 100 30 3 5 = "differentiate" ∧
    cannibalizationAction 0 0 10 20 = "redirect" ∧
    cannibalizationAction 0 0 10 12 = "consolidate" := by
  refine ⟨?_, ?_, ?_, ?_, ?_, ?_⟩
  · intro wc lc wp lp hw
    have hcr : (if 0 < wc then lc / wc else 0)
        = (if wc = 0 then 0 else lc / wc) := by
      rcases hw.eq_or_lt with h | h
      · simp [← h]
      · simp [h, h.ne']
    simp only [cannibalizationAction]
    rw [hcr]
    by_cases h1 : (if wc = 0 then 0 else lc / wc) < 1/10 ∧ 5 < lp - wp
    · rw [if_pos h1]
      refine ⟨⟨fun _ => h1, fun _ => rfl⟩, ⟨fun hc => absurd hc (by decide),
        fun hn => absurd h1 hn.1⟩, ⟨fun hd => absurd hd (by decide),
        fun hn => absurd h1 hn.1⟩⟩
    · rw [if_neg h1]
      by_cases h2 : (if wc = 0 then 0 else lc / wc) < 3/10
      · rw [if_pos h2]
        refine ⟨⟨fun hc => absurd hc (by decide), fun hh => absurd hh h1⟩,
          ⟨fun _ => ⟨h1, h2⟩, fun _ => rfl⟩,
          ⟨fun hd => absurd hd (by decide), fun hn => absurd h2 hn.2⟩⟩
      · rw [if_neg h2]
        refine ⟨⟨fun hr => absurd hr (by decide), fun hh => absurd hh h1⟩,
          ⟨fun hc => absurd hc (by decide), fun hh => absurd hh.2 h2⟩,
          ⟨fun _ => ⟨h1, h2⟩, fun _ => rfl⟩⟩
  all_goals norm_num [cannibalizationAction]

/-- Witness for C5 at the first benchmark input `(100, 5, 3, 15)`. -/
theorem cannibalizationAction_spec_witness :
    (0 : ℚ) ≤ 100 ∧
    ((cannibalizationAction 100 5 3 15 = "redirect")
      ↔ ((if (100 : ℚ) = 0 then 0 else (5 : ℚ) / 100) < 1/10
          ∧ (5 : ℚ) < 15 - 3)) :=
  ⟨by norm_num, (cannibalizationAction_spec.1 100 5 3 15 (by norm_num)).1⟩

/-- C9: `expectedCtr` looks up the fixed benchmark table at the rounded
integer position when it rounds into 1-10 (28.5 at 1 declining to 2.5 at
10), clamps out-of-range positions to the nearest edge, and carries a
2.0 default for a lookup miss (unreachable after clamping); the table is
strictly declining. -/
theorem expectedCtr_spec :
    (∀ p : ℚ, 1 ≤ round p → round p ≤ 10 →
        expectedCtr p = (ctrBenchmarks.lookup (round p)).getD 2) ∧
    (∀ p : ℚ, round p < 1 → expectedCtr p = 57/2) ∧
    (∀ p : ℚ, 10 < round p → expectedCtr p = 5/2) ∧
    expectedCtr 1 = 57/2 ∧ expectedCtr 10 = 5/2 ∧
    (∀ p : ℚ, (ctrBenchmarks.lookup (min (max (round p) 1) 10)).isSome = true) ∧
    ctrBenchmarks.Chain' (fun a b => b.2 < a.2) := by
  refine ⟨?_, ?_, ?_, ?_, ?_, ?_, ?_⟩
  · intro p h1 h2
    have hcl : min (max (round p) 1) 10 = round p := by omega
    simp only [expectedCtr, hcl]
  · intro p h
    have hcl : min (max (round p) 1) 10 = 1 := by omega
    simp only [expectedCtr, hcl]; rfl
  · intro p h
    have hcl : min (max (round p) 1) 10 = 10 := by omega
    simp only [expectedCtr, hcl]; rfl
  · have h1 : round ((1 : ℚ)) = 1 := by norm_num [round_eq]
    simp only [expectedCtr, h1]; rfl
  · have h10 : round ((10 : ℚ)) = 10 := by norm_num [round_eq]
    simp only [expectedCtr, h10]; rfl
  · intro p
    set z := min (max (round p) 1) 10 with hz
    have hb1 : 1 ≤ z := by omega
    have hb2 : z ≤ 10 := by omega
    interval_cases z <;> rfl
  · simp [ctrBenchmarks, List.chain'_cons]; norm_num

/-- Witness for C9 at `position = 3`. -/
theorem expectedCtr_spec_witness :
    1 ≤ round ((3 : ℚ)) ∧ round ((3 : ℚ)) ≤ 10 ∧
    expectedCtr 3 = (ctrBenchmarks.lookup (round ((3 : ℚ)))).getD 2 :=
  ⟨by norm_num [round_eq], by norm_num [round_eq],
   expectedCtr_spec.1 3 (by norm_num [round_eq]) (by norm_num [round_eq])⟩

/-- C1 (refuting evaluation): `handleComparePeriods` maps over the
period-A rows only, so on the repository's own `compare_periods` test
input — where the key `lost` is present only in the prior period B — the
produced comparisons carry the key `steady` alone.  The prior-only key is
silently dropped, contradicting both the claim and the repository's test,
which expects a `lost` entry with period-A metrics zeroed and a click
delta of `-40`. -/
theorem comparePeriods_drops_prior_only_key :
    comparePeriodsRowsB.map SearchAnalyticsRow.keys
      = [some ["steady"], some ["lost"]] ∧
    (handleComparePeriodsComparisons comparePeriodsRowsA
        comparePeriodsRowsB).map Comparison.keys = [some ["steady"]] := by
  constructor
  · rfl
  · simp [handleComparePeriodsComparisons, comparePeriodsRowsA,
      compareRow, List.mergeSort_singleton]

/-- C7: the rate-limited sequencer returns exactly one entry per input
thunk, in input order; an individual thunk's failure is carried as its
error value in place, so it does not stop the remaining thunks and every
later entry is still the corresponding thunk's own outcome. -/
theorem rateLimited_spec :
    ∀ (ε α : Type) (fns : List (Unit → Except ε α)) (delayMs i : ℕ),
      (rateLimited fns delayMs).length = fns.length ∧
      (rateLimited fns delayMs)[i]? = (fns[i]?).map (fun f => f ()) := by
  intro ε α fns delayMs i
  constructor
  · induction fns with
    | nil => simp [rateLimited]
    | cons f rest ih => simp [rateLimited, ih]
  · induction fns generalizing i with
    | nil => simp [rateLimited]
    | cons f rest ih =>
      cases i with
      | zero => simp [rateLimited]
      | succ j => simp [rateLimited, ih j]

mutual
/-- After the `jsonResult` replacer runs, no non-finite number remains
anywhere in the tree. -/
theorem jsonResultValue_nonFiniteFree :
    ∀ v : JVal, nonFiniteFree (jsonResultValue v) = true
  | .null => rfl
  | .bool _ => rfl
  | .num n => by cases n <;> rfl
  | .str _ => rfl
  | .arr l => by
      have h := jsonResultArr_nonFiniteFree l
      simp [jsonResultValue, nonFiniteFree, h]
  | .obj f => by
      have h := jsonResultObj_nonFiniteFree f
      simp [jsonResultValue, nonFiniteFree, h]
/-- Array case of `jsonResultValue_nonFiniteFree`. -/
theorem jsonResultArr_nonFiniteFree :
    ∀ l : JArr, nonFiniteFreeArr (jsonResultArr l) = true
  | .nil => rfl
  | .cons h t => by
      have h1 := jsonResultValue_nonFiniteFree h
      have h2 := jsonResultArr_nonFiniteFree t
      simp [jsonResultArr, nonFiniteFreeArr, h1, h2]
/-- Object case of `jsonResultValue_nonFiniteFree`. -/
theorem jsonResultObj_nonFiniteFree :
    ∀ f : JObj, nonFiniteFreeObj (jsonResultObj f) = true
  | .nil => rfl
  | .cons _ v t => by
      have h1 := jsonResultValue_nonFiniteFree v
      have h2 := jsonResultObj_nonFiniteFree t
      simp [jsonResultObj, nonFiniteFreeObj, h1, h2]
end

mutual
/-- The `jsonResult` replacer leaves the finite numeric leaves unchanged,
in order. -/
theorem jsonResultValue_finiteLeaves :
    ∀ v : JVal, finiteLeaves (jsonResultValue v) = finiteLeaves v
  | .null => rfl
  | .bool _ => rfl
  | .num n => by cases n <;> rfl
  | .str _ => rfl
  | .arr l => by
      have h := jsonResultArr_finiteLeaves l
      simp [jsonResultValue, finiteLeaves, h]
  | .obj f => by
      have h := jsonResultObj_finiteLeaves f
      simp [jsonResultValue, finiteLeaves, h]
/-- Array case of `jsonResultValue_finiteLeaves`. -/
theorem jsonResultArr_finiteLeaves :
    ∀ l : JArr, finiteLeavesArr (jsonResultArr l) = finiteLeavesArr l
  | .nil => rfl
  | .cons h t => by
      have h1 := jsonResultValue_finiteLeaves h
      have h2 := jsonResultArr_finiteLeaves t
      simp [jsonResultArr, finiteLeavesArr, h1, h2]
/-- Object case of `jsonResultValue_finiteLeaves`. -/
theorem jsonResultObj_finiteLeaves :
    ∀ f : JObj, finiteLeavesObj (jsonResultObj f) = finiteLeavesObj f
  | .nil => rfl
  | .cons _ v t => by
      have h1 := jsonResultValue_finiteLeaves v
      have h2 := jsonResultObj_finiteLeaves t
      simp [jsonResultObj, finiteLeavesObj, h1, h2]
end

/-- C8: the value tree actually serialized by `jsonResult` replaces every
non-finite numeric leaf, anywhere in the object, by its textual name
(`"Infinity"`, `"-Infinity"`, `"NaN"`) — never by a finite coercion,
`null`, or omission — while finite numeric leaves pass through unchanged
and the surrounding structure is preserved. -/
theorem jsonResult_nonfinite_serialization :
    (∀ v : JVal, nonFiniteFree (jsonResultValue v) = true) ∧
    jsonResultValue (JVal.num JsNum.inf) = JVal.str "Infinity" ∧
    jsonResultValue (JVal.num JsNum.negInf) = JVal.str "-Infinity" ∧
    jsonResultValue (JVal.num JsNum.nan) = JVal.str "NaN" ∧
    (∀ q : ℚ, jsonResultValue (JVal.num (JsNum.finite q))
        = JVal.num (JsNum.finite q)) ∧
    (∀ l : JArr, jsonResultValue (JVal.arr l) = JVal.arr (jsonResultArr l)) ∧
    (∀ f : JObj, jsonResultValue (JVal.obj f) = JVal.obj (jsonResultObj f)) ∧
    (∀ v : JVal, finiteLeaves (jsonResultValue v) = finiteLeaves v) :=
  ⟨jsonResultValue_nonFiniteFree, rfl, rfl, rfl, fun _ => rfl,
   fun _ => rfl, fun _ => rfl, jsonResultValue_finiteLeaves⟩

/-- Closed form for the number of loop iterations of `rollingWindows`:
one window per offset `0, step, 2*step, ...` while `offset + windowDays`
stays within `totalDays`. -/
theorem rollLoop_length (T W s : ℕ) (hs : 0 < s) :
    ∀ o, (rollLoop T W s o).length
      = if o + W ≤ T then (T - W - o) / s + 1 else 0 := by
  intro o
  induction o using rollLoop.induct T W s with
  | case1 o h ih =>
    rw [rollLoop.eq_def, dif_pos h]
    simp only [List.length_cons, ih]
    by_cases h2 : o + s + W ≤ T
    · rw [if_pos h2, if_pos h.1]
      have hle : s ≤ T - W - o := by omega
      have e1 : T - W - (o + s) = T - W - o - s := by omega
      have e2 : (T - W - o) / s = (T - W - o - s) / s + 1 :=
        Nat.div_eq_sub_div hs hle
      rw [e1, e2]
    · rw [if_neg h2, if_pos h.1]
      have hlt : T - W - o < s := by omega
      rw [Nat.div_eq_of_lt hlt]
  | case2 o h =>
    rw [rollLoop.eq_def, dif_neg h]
    have hno : ¬(o + W ≤ T) := fun hc => h ⟨hc, hs⟩
    rw [if_neg hno]
    rfl

/-- The window list is as long as the offset list. -/
theorem rollingWindows_length (today : ℤ) (T W : ℕ) (stepDays : Option ℕ) :
    (rollingWindows today T W stepDays).length
      = (rollLoop T W (stepDays.getD W) 0).length := by
  simp only [rollingWindows, List.length_reverse, List.length_map]

/-- Every emitted window spans exactly `windowDays` inclusive days. -/
theorem rollingWindows_span (today : ℤ) (T W : ℕ) (stepDays : Option ℕ) :
    ∀ w ∈ rollingWindows today T W stepDays,
      w.endDate - w.startDate = (W : ℤ) - 1 := by
  intro w hw
  simp only [rollingWindows, List.mem_reverse, List.mem_map] at hw
  obtain ⟨o, _, rfl⟩ := hw
  simp [daysAgo]

/-- Concrete evaluation of the offset loop for `totalDays = 28`,
`windowDays = 7`, default step 7. -/
theorem rollLoop_28_7_7 : rollLoop 28 7 7 0 = [0, 7, 14, 21] := by
  simp [rollLoop.eq_def]

/-- C4: `rollingWindows(28, 7)` with the default step yields exactly 4
windows, each spanning 6 calendar days, in strictly ascending
(oldest-first) chronological order; and for fixed `totalDays` and
`windowLength`, decreasing the step never decreases the window count. -/
theorem rollingWindows_spec :
    (∀ today : ℤ, (rollingWindows today 28 7 none).length = 4) ∧
    (∀ today : ℤ, ∀ w ∈ rollingWindows today 28 7 none,
        w.endDate - w.startDate = 6) ∧
    (∀ today : ℤ, List.Chain'
        (fun a b => a.startDate < b.startDate ∧ a.endDate < b.endDate)
        (rollingWindows today 28 7 none)) ∧
    (∀ (today : ℤ) (totalDays windowDays s1 s2 : ℕ), 0 < s1 → s1 ≤ s2 →
        (rollingWindows today totalDays windowDays (some s2)).length
          ≤ (rollingWindows today totalDays windowDays (some s1)).length) := by
  refine ⟨?_, ?_, ?_, ?_⟩
  · intro today; simp [rollingWindows, rollLoop_28_7_7]
  · intro today w hw
    have h := rollingWindows_span today 28 7 none w hw
    omega
  · intro today
    simp [rollingWindows, rollLoop_28_7_7, daysAgo, List.chain'_cons]
  · intro today T W s1 s2 hs1 hs12
    have hs2 : 0 < s2 := lt_of_lt_of_le hs1 hs12
    rw [rollingWindows_length, rollingWindows_length]
    simp only [Option.getD_some]
    rw [rollLoop_length T W s2 hs2 0, rollLoop_length T W s1 hs1 0]
    by_cases h : 0 + W ≤ T
    · rw [if_pos h, if_pos h]
      exact Nat.add_le_add_right (Nat.div_le_div_left hs12 hs1) 1
    · rw [if_neg h, if_neg h]

/-- Witness for C4: a concrete member of `rollingWindows 0 28 7` spans 6
days, and step 3 yields at least as many windows as step 7. -/
theorem rollingWindows_spec_witness :
    (DateRange.mk (-28) (-22) ∈ rollingWindows 0 28 7 none ∧
      (DateRange.mk (-28) (-22)).endDate
        - (DateRange.mk (-28) (-22)).startDate = 6) ∧
    (0 < 3 ∧ 3 ≤ 7 ∧
      (rollingWindows 0 28 7 (some 7)).length
        ≤ (rollingWindows 0 28 7 (some 3)).length) := by
  have hmem : DateRange.mk (-28) (-22) ∈ rollingWindows 0 28 7 none := by
    simp [rollingWindows, rollLoop_28_7_7, daysAgo]
  exact ⟨⟨hmem, rollingWindows_spec.2.1 0 (DateRange.mk (-28) (-22)) hmem⟩,
    by norm_num, by norm_num,
    rollingWindows_spec.2.2.2 0 28 7 3 7 (by norm_num) (by norm_num)⟩

/-- C10: for any non-negative total, positive window length and positive
step, every window emitted by `rollingWindows` spans exactly `windowDays`
inclusive calendar days — no shorter trailing window is ever emitted —
and when `windowDays` exceeds `totalDays` the result is empty. -/
theorem rollingWindows_full_windows :
    ∀ (today : ℤ) (totalDays windowDays stepDays : ℕ),
      1 ≤ windowDays → 1 ≤ stepDays →
      (∀ w ∈ rollingWindows today totalDays windowDays (some stepDays),
          w.endDate - w.startDate = (windowDays : ℤ) - 1) ∧
      (totalDays < windowDays →
          rollingWindows today totalDays windowDays (some stepDays) = []) := by
  intro today T W s hW hs
  refine ⟨fun w hw => rollingWindows_span today T W (some s) w hw, ?_⟩
  intro hTW
  have hempty : rollLoop T W s 0 = [] := by
    have hno : ¬(0 + W ≤ T ∧ 0 < s) := by omega
    rw [rollLoop.eq_def, dif_neg hno]
  simp [rollingWindows, hempty]

/-- Witness for C10 at `totalDays = 5 < windowDays = 7`, `stepDays = 1`. -/
theorem rollingWindows_full_windows_witness :
    1 ≤ 7 ∧ 1 ≤ 1 ∧ 5 < 7 ∧ rollingWindows 0 5 7 (some 1) = [] :=
  ⟨by norm_num, by norm_num, by norm_num,
   (rollingWindows_full_windows 0 5 7 1 (by norm_num) (by norm_num)).2
     (by norm_num)⟩

/-- C6: given settled results for the four sources, the dashboard
assembler (a total function — it never raises) returns one composite
record with one named field per source; a failed source is embedded as an
error object carrying the rejection message (with the source-specific
`code` for CrUX when truthy), a succeeded source is reported with its
decoded value, and each source's field is unaffected by the outcomes of
the other three sources. -/
theorem pageHealthDashboard_spec :
    ∀ (url siteUrl : String) (dr : DateRange) (r : Reason)
      (i : Except Reason JVal) (a : Except Reason AnalyticsResponse)
      (p : Except Reason PsiResponse) (c : Except Reason CruxResponse),
      (handlePageHealthDashboard url siteUrl dr (.error r) a p c).inspection
          = .err (r.message.getD "Inspection failed") ∧
      (handlePageHealthDashboard url siteUrl dr i (.error r) p c).analytics
          = .err (r.message.getD "Analytics failed") ∧
      (handlePageHealthDashboard url siteUrl dr i a (.error r) c).pageSpeed
          = .err (r.message.getD "PageSpeed failed") ∧
      (handlePageHealthDashboard url siteUrl dr i a p (.error r)).crux
          = .err (r.message.getD "CrUX failed") (truthyCode r.code) ∧
      (∀ d, ∃ v,
        (handlePageHealthDashboard url siteUrl dr (.ok d) a p c).inspection
          = .ok v) ∧
      (∀ ar, ∃ cl im ct po nt,
        (handlePageHealthDashboard url siteUrl dr i (.ok ar) p c).analytics
          = .ok cl im ct po nt) ∧
      (∀ pr, ∃ sc fd oc,
        (handlePageHealthDashboard url siteUrl dr i a (.ok pr) c).pageSpeed
          = .ok sc fd oc) ∧
      (∀ cr,
        (handlePageHealthDashboard url siteUrl dr i a p (.ok cr)).crux
          = .ok cr.data) ∧
      (∀ i2 a2 p2 c2,
        (handlePageHealthDashboard url siteUrl dr i a2 p2 c2).inspection
          = (handlePageHealthDashboard url siteUrl dr i a p c).inspection ∧
        (handlePageHealthDashboard url siteUrl dr i2 a p2 c2).analytics
          = (handlePageHealthDashboard url siteUrl dr i a p c).analytics ∧
        (handlePageHealthDashboard url siteUrl dr i2 a2 p c2).pageSpeed
          = (handlePageHealthDashboard url siteUrl dr i a p c).pageSpeed ∧
        (handlePageHealthDashboard url siteUrl dr i2 a2 p2 c).crux
          = (handlePageHealthDashboard url siteUrl dr i a p c).crux) := by
  intro url siteUrl dr r i a p c
  refine ⟨rfl, rfl, rfl, rfl, ?_, ?_, ?_, ?_, ?_⟩
  · intro d; exact ⟨_, rfl⟩
  · intro ar
    cases h : (ar.rows.getD []).head? with
    | some row =>
      exact ⟨row.clicks.getD 0, row.impressions.getD 0,
        round2 ((row.ctr.getD 0) * 100), round1 (row.position.getD 0),
        none, by simp [handlePageHealthDashboard, h]⟩
    | none =>
      exact ⟨0, 0, 0, 0, some "No data for this URL in date range",
        by simp [handlePageHealthDashboard, h]⟩
  · intro pr; exact ⟨_, _, _, rfl⟩
  · intro cr; rfl
  · intro i2 a2 p2 c2; exact ⟨rfl, rfl, rfl, rfl⟩
